-- Verification of the CodeAgentX core behaviors against a shallow embedding of
-- src/services/geminiService.ts (first file variant, the one the line
-- references of the claims point into), src/services/dependencyService.ts and
-- src/App.tsx. JavaScript strings are modeled as Lean strings, JavaScript
-- numbers carrying millisecond delays as rationals, absent (undefined) values
-- as Option. The remote backend is modeled as an oracle mapping the attempt
-- index to the outcome of that attempt.
import Mathlib

set_option maxHeartbeats 1000000
set_option maxRecDepth 4096

-- ===== Generic string helpers used to model JavaScript string operations =====

-- Strips the literal pat from the front of cs, mirroring a fixed-text match.
def stripLitL : List Char → List Char → Option (List Char)
| [], cs => some cs
| _ :: _, [] => none
| l :: ls, c :: cs => if c = l then stripLitL ls cs else none

-- Splits cs at the first occurrence of pat: returns the text before the
-- occurrence and the text after it. Fuel bounds the scan; callers pass the
-- length of the scanned text plus one.
def findSplit (pat : List Char) : Nat → List Char → Option (List Char × List Char)
| 0, _ => none
| fuel+1, cs =>
  match stripLitL pat cs with
  | some rest => some ([], rest)
  | none =>
    match cs with
    | [] => none
    | c :: cs2 =>
      match findSplit pat fuel cs2 with
      | some (pre, rest) => some (c :: pre, rest)
      | none => none

-- Splits s at the first occurrence of pat, if any.
def splitFirst (s pat : String) : Option (String × String) :=
  match findSplit pat.toList (s.toList.length + 1) s.toList with
  | some (pre, rest) => some (String.mk pre, String.mk rest)
  | none => none

-- Models the JavaScript String.prototype.includes test for a nonempty pattern.
def jsIncludes (s pat : String) : Bool := (splitFirst s pat).isSome

-- Models the JavaScript String.prototype.replace with a plain-string pattern,
-- which replaces only the first occurrence.
def replaceFirst (s pat repl : String) : String :=
  match splitFirst s pat with
  | some (pre, rest) => pre ++ repl ++ rest
  | none => s

-- Models the JavaScript String.prototype.split with a one-character separator.
def splitOnCharL (sep : Char) : List Char → List (List Char)
| [] => [[]]
| c :: cs =>
  let r := splitOnCharL sep cs
  if c = sep then [] :: r
  else
    match r with
    | h :: t => (c :: h) :: t
    | [] => [[c]]

-- Models the JavaScript String.prototype.endsWith.
def strEndsWith (s suf : String) : Bool := suf.toList.isSuffixOf s.toList

-- Models the JavaScript String.prototype.trim restricted to the ASCII
-- whitespace characters that occur in the texts at issue.
def strTrim (s : String) : String :=
  String.mk (((s.toList.dropWhile Char.isWhitespace).reverse.dropWhile
    Char.isWhitespace).reverse)

def digitsToNat (ds : List Char) : Nat :=
  ds.foldl (fun a c => a * 10 + (c.toNat - 48)) 0

-- Models parseInt(x, 10) on the inputs at issue: optional leading whitespace
-- and sign, then a maximal run of leading decimal digits; none when no digit
-- leads (the NaN case).
def jsParseInt (s : String) : Option Int :=
  match s.toList.dropWhile Char.isWhitespace with
  | '-' :: rest =>
    let ds := rest.takeWhile Char.isDigit
    if ds.isEmpty then none else some (-(digitsToNat ds : Int))
  | '+' :: rest =>
    let ds := rest.takeWhile Char.isDigit
    if ds.isEmpty then none else some ((digitsToNat ds : Int))
  | cs =>
    let ds := cs.takeWhile Char.isDigit
    if ds.isEmpty then none else some ((digitsToNat ds : Int))

-- ===== Completion Client: src/services/geminiService.ts =====

-- One entry of the details array of a backend error payload. The field
-- isRetryInfoType models the test that the value at key @type contains the
-- text RetryInfo; retryDelay none models an absent or empty (falsy) field.
structure RetryDetail where
  isRetryInfoType : Bool
  retryDelay : Option String
deriving DecidableEq, Repr

-- A backend error as observed by sendMessageToGemini. status and code model
-- the numeric status fields compared against 429 and 503 (a non-numeric
-- status, which this file variant never compares against anything, is modeled
-- as none); message none models an undefined message; details none models an
-- absent or non-array details field; isErrorInstance models the test
-- error instanceof Error.
structure ApiError where
  isErrorInstance : Bool
  status : Option Nat
  code : Option Nat
  message : Option String
  details : Option (List RetryDetail)
deriving DecidableEq, Repr

def retryInLit : List Char := "retry in ".toList

-- Parses a decimal number literal, digits then an optional dot-digits
-- fraction, as matched by the regular expression group in getRetryDelay.
def parseDecFrac (cs : List Char) : Option (ℚ × List Char) :=
  let p := cs.span Char.isDigit
  if p.1.isEmpty then none
  else
    match p.2 with
    | '.' :: r2 =>
      let q := r2.span Char.isDigit
      if q.1.isEmpty then some ((digitsToNat p.1 : ℚ), p.2)
      else some ((digitsToNat p.1 : ℚ) + (digitsToNat q.1 : ℚ) / (10 : ℚ) ^ q.1.length, q.2)
    | _ => some ((digitsToNat p.1 : ℚ), p.2)

-- Finds the leftmost match of the pattern: the literal text retry-in-space,
-- then a decimal number, then the letter s, as in the regular expression of
-- getRetryDelay. Greedy digit runs are exact here because shrinking a digit
-- run always leaves a digit where the pattern requires a dot or the letter s.
def scanRetryIn : Nat → List Char → Option ℚ
| 0, _ => none
| _+1, [] => none
| fuel+1, c :: rest =>
  match stripLitL retryInLit (c :: rest) with
  | some cs1 =>
    match parseDecFrac cs1 with
    | some (q, 's' :: _) => some q
    | _ => scanRetryIn fuel rest
  | none => scanRetryIn fuel rest

def findRetryInMatch (m : String) : Option ℚ := scanRetryIn (m.toList.length + 1) m.toList

-- Step 1 of getRetryDelay: the first details entry whose type mentions
-- RetryInfo, its retryDelay with the first letter s removed, parsed as an
-- integer; on success the delay is that many seconds plus one, in ms.
def retryInfoDelayOpt (e : ApiError) : Option ℚ :=
  match e.details with
  | some ds =>
    match ds.find? (fun d => d.isRetryInfoType) with
    | some d =>
      match d.retryDelay with
      | some rd =>
        match jsParseInt (replaceFirst rd "s" "") with
        | some secs => some (((secs : ℚ) + 1) * 1000)
        | none => none
      | none => none
    | none => none
  | none => none

-- Step 2 of getRetryDelay: the retry-in pattern matched against the message.
def messageDelayOpt (e : ApiError) : Option ℚ :=
  match e.message with
  | some m =>
    match findRetryInMatch m with
    | some n => some ((n + 1) * 1000)
    | none => none
  | none => none

-- getRetryDelay from src/services/geminiService.ts lines 37 to 54.
def getRetryDelay (e : ApiError) : ℚ :=
  match retryInfoDelayOpt e with
  | some d => d
  | none =>
    match messageDelayOpt e with
    | some d => d
    | none => 0

-- Quota classification from src/services/geminiService.ts lines 146 to 152.
def isQuotaError (e : ApiError) : Bool :=
  e.status == some 429 || e.code == some 429 || e.status == some 503 ||
    (match e.message with
     | some m =>
       jsIncludes m "429" || jsIncludes m "Quota exceeded" ||
         jsIncludes m "RESOURCE_EXHAUSTED"
     | none => false)

def MAX_RETRIES : Nat := 5

def noTextFallback : String :=
  "I analyzed the input but could not generate a textual response."

def quotaExhaustedMessage : String :=
  "Error: System overloaded or quota exceeded. The model asked to wait, but retries were exhausted. \n\nTip: Try switching to **FAST** mode (Gemini Flash) which has higher limits."

def failedToConnectMessage : String :=
  "Error: Failed to connect to Gemini API after multiple attempts."

-- The non-quota error string of line 176.
def nonQuotaErrorMessage (e : ApiError) : String :=
  "Error: " ++ (if e.isErrorInstance then e.message.getD "" else "Unknown error occurred")

-- The delay actually waited before retry number n: getRetryDelay when it is
-- nonzero, else the exponential backoff of line 162 with the already
-- incremented retry counter as exponent.
def effectiveRetryDelay (e : ApiError) (n : Nat) : ℚ :=
  let d := getRetryDelay e
  if d = 0 then 2000 * 2 ^ n else d

-- Outcome of one backend attempt: success carries response.text, with none
-- modeling an absent text; failure carries the thrown error.
inductive AttemptResult where
| success (text : Option String)
| failure (e : ApiError)
deriving DecidableEq, Repr

def isQuotaFailure : AttemptResult → Bool
| AttemptResult.success _ => false
| AttemptResult.failure e => isQuotaError e

-- Observable outcome of a whole sendMessageToGemini invocation: the returned
-- string, the number of backend calls performed, and the waits in ms.
structure RunResult where
  result : String
  calls : Nat
  delays : List ℚ
deriving DecidableEq, Repr

-- Models the JavaScript text-or-fallback idiom where the empty string is falsy.
def jsOrElse : Option String → String → String
| none, fb => fb
| some s, fb => if s = "" then fb else s

-- The retry loop of src/services/geminiService.ts lines 127 to 180. The while
-- condition retries less-or-equal MAX_RETRIES is represented by the fuel,
-- which starts at MAX_RETRIES plus one and decreases as retries increases;
-- the fuel-zero branch is the return statement after the loop.
def geminiAttemptLoop (backend : Nat → AttemptResult) : Nat → Nat → RunResult
| 0, _ => RunResult.mk failedToConnectMessage 0 []
| fuel+1, retries =>
  match backend retries with
  | AttemptResult.success t => RunResult.mk (jsOrElse t noTextFallback) 1 []
  | AttemptResult.failure e =>
    if isQuotaError e then
      if retries < MAX_RETRIES then
        let d := effectiveRetryDelay e (retries + 1)
        let r := geminiAttemptLoop backend fuel (retries + 1)
        RunResult.mk r.result (r.calls + 1) (d :: r.delays)
      else RunResult.mk quotaExhaustedMessage 1 []
    else RunResult.mk (nonQuotaErrorMessage e) 1 []

-- sendMessageToGemini from src/services/geminiService.ts lines 56 to 181,
-- abstracted over the backend oracle. The request assembly (model selection,
-- system instruction, context serialization) does not influence the control
-- flow and is not modeled; no claim refers to it.
def sendMessageToGemini (backend : Nat → AttemptResult) : RunResult :=
  geminiAttemptLoop backend (MAX_RETRIES + 1) 0

-- ===== Response Parser and Repair Orchestrator: src/App.tsx =====

-- Result of processResponse: the visible text and the optional reasoning
-- trace, thoughts none modeling an absent field.
structure ProcessedResponse where
  text : String
  thoughts : Option String
deriving DecidableEq, Repr

-- processResponse from src/App.tsx lines 112 to 120. The non-greedy regular
-- expression matches the first occurrence of the opening tag through the
-- first occurrence of the closing tag after it; replace with the same
-- pattern removes exactly that span.
def processResponse (fullText : String) : ProcessedResponse :=
  match splitFirst fullText "<thinking>" with
  | some (pre, rest) =>
    match splitFirst rest "</thinking>" with
    | some (inner, post) =>
      ProcessedResponse.mk (strTrim (pre ++ post)) (some (strTrim inner))
    | none => ProcessedResponse.mk fullText none
  | none => ProcessedResponse.mk fullText none

-- Observable outcome of the Debug-mode branch of handleSend: the final
-- message text, the aggregated thoughts, and the number of Completion Client
-- calls performed.
structure DebugOutcome where
  finalText : String
  finalThoughts : String
  calls : Nat
deriving DecidableEq, Repr

def verifiedMarker : String := "STATUS: VERIFIED"

def qaSectionHeader : String := "\n\n### 🔍 QA Verification Simulation\n"

def qaPlaceholder : String := "Executing mental sandbox test suite..."

def repairHeader : String :=
  "\n\n### 🛠️ Autonomous Repair\nDetected failure in simulation. Applying fixes based on QA feedback.\n"

-- The Debug-mode flow of handleSend, src/App.tsx lines 277 to 365. The
-- Completion Client is abstracted as an oracle from the call index to the
-- raw returned string: index 0 is the draft call, index 1 the verification
-- call, index 2 the refinement call. Prompt construction does not influence
-- the decision and is not modeled.
def debugFlow (oracle : Nat → String) : DebugOutcome :=
  let draft := processResponse (oracle 0)
  let verification := processResponse (oracle 1)
  let verified := jsIncludes verification.text verifiedMarker
  let baseThoughts :=
    (draft.thoughts.getD "") ++ qaSectionHeader ++
      (verification.thoughts.getD qaPlaceholder) ++ "\n\n**Result:** " ++
      (if verified then "Pass" else "Fail")
  if verified then DebugOutcome.mk draft.text baseThoughts 2
  else
    let finalFix := processResponse (oracle 2)
    DebugOutcome.mk finalFix.text
      (baseThoughts ++ repairHeader ++ (finalFix.thoughts.getD "")) 3

-- ===== File corpus data model: src/types.ts =====

inductive FileType where
| file
| image
| log
| metric
| issue
deriving DecidableEq, Repr

structure FileContext where
  id : String
  name : String
  content : String
  type : FileType
  mimeType : Option String
deriving DecidableEq, Repr

-- ===== Apply-change operation: src/App.tsx lines 453 to 477 =====

-- The matching predicate of the find call on line 455.
def applyChangePred (fileName : String) (f : FileContext) : Bool :=
  f.name == fileName || strEndsWith f.name ("/" ++ fileName)

-- The per-record update of the map call on line 457: replaces content on the
-- records whose id equals the matched id.
def updateContent (eid newContent : String) (f : FileContext) : FileContext :=
  if f.id == eid then FileContext.mk f.id f.name newContent f.type f.mimeType
  else f

-- handleApplyChange, src/App.tsx lines 453 to 467 (the setFiles updater).
-- newId stands for the randomly generated id of a freshly appended record.
def handleApplyChange (newId fileName newContent : String)
    (prev : List FileContext) : List FileContext :=
  match prev.find? (applyChangePred fileName) with
  | some existing => prev.map (updateContent existing.id newContent)
  | none => prev ++ [FileContext.mk newId fileName newContent FileType.file none]

-- ===== Import Extractor and Graph Builder: src/services/dependencyService.ts =====

-- The character class of the middle group of the js import pattern: word
-- characters, whitespace, the two braces, comma and star.
def isWordChar (c : Char) : Bool := c.isAlphanum || c = '_'

def isClassChar (c : Char) : Bool :=
  isWordChar c || c.isWhitespace || c.toNat = 123 || c.toNat = 125 || c = ',' || c = '*'

-- Either quote character accepted by the quote class of the patterns.
def isQuote (c : Char) : Bool := c.toNat = 39 || c = '"'

-- Parses whitespace, the literal from, whitespace, a quote, a nonempty run of
-- non-quote characters (the captured path), and a closing quote.
def parseFromClause (cs : List Char) : Option (String × List Char) :=
  let w1 := cs.span Char.isWhitespace
  if w1.1.isEmpty then none
  else
    match stripLitL "from".toList w1.2 with
    | none => none
    | some r2 =>
      let w2 := r2.span Char.isWhitespace
      if w2.1.isEmpty then none
      else
        match w2.2 with
        | q :: r4 =>
          if isQuote q then
            let p := r4.span (fun c => !(isQuote c))
            if p.1.isEmpty then none
            else
              match p.2 with
              | _ :: r6 => some (String.mk p.1, r6)
              | [] => none
          else none
        | [] => none

-- Searches the split point of the greedy middle group: the group together
-- with the leading whitespace spans k characters, tried from the longest
-- feasible value downwards, exactly the backtracking order of the pattern.
def jsImportSearchSplit (cs1 : List Char) : Nat → Option (String × List Char)
| 0 => none
| k+1 =>
  if k + 1 < 2 then none
  else
    match parseFromClause (cs1.drop (k+1)) with
    | some r => some r
    | none => jsImportSearchSplit cs1 k

-- Anchored match of the pattern import, whitespace, selector group, from,
-- quoted path. Shrinking the greedy digit-free selector group only ever moves
-- the boundary onto a class character, so trying each total span length from
-- the maximum down is exactly the backtracking search of the pattern.
def tryMatchJsImport (cs : List Char) : Option (String × List Char) :=
  match stripLitL "import".toList cs with
  | none => none
  | some cs1 =>
    match cs1 with
    | [] => none
    | c :: _ =>
      if c.isWhitespace then jsImportSearchSplit cs1 ((cs1.span isClassChar).1.length)
      else none

-- Anchored match of the side-effect pattern import, whitespace, quoted path.
def tryMatchSideEffect (cs : List Char) : Option (String × List Char) :=
  match stripLitL "import".toList cs with
  | none => none
  | some cs1 =>
    let w := cs1.span Char.isWhitespace
    if w.1.isEmpty then none
    else
      match w.2 with
      | q :: r2 =>
        if isQuote q then
          let p := r2.span (fun c => !(isQuote c))
          if p.1.isEmpty then none
          else
            match p.2 with
            | _ :: r4 => some (String.mk p.1, r4)
            | [] => none
        else none
      | [] => none

-- Anchored match of the require pattern: the literal require, an opening
-- parenthesis, a quoted path, a closing parenthesis.
def tryMatchRequire (cs : List Char) : Option (String × List Char) :=
  match stripLitL "require(".toList cs with
  | none => none
  | some r1 =>
    match r1 with
    | q :: r2 =>
      if isQuote q then
        let p := r2.span (fun c => !(isQuote c))
        if p.1.isEmpty then none
        else
          match p.2 with
          | _ :: ')' :: r4 => some (String.mk p.1, r4)
          | _ => none
      else none
    | [] => none

-- Anchored match of the python pattern from, whitespace, module, whitespace,
-- import; captures the module.
def tryMatchPyFrom (cs : List Char) : Option (String × List Char) :=
  match stripLitL "from".toList cs with
  | none => none
  | some r1 =>
    let w1 := r1.span Char.isWhitespace
    if w1.1.isEmpty then none
    else
      let tok := w1.2.span (fun c => !(c.isWhitespace))
      if tok.1.isEmpty then none
      else
        let w2 := tok.2.span Char.isWhitespace
        if w2.1.isEmpty then none
        else
          match stripLitL "import".toList w2.2 with
          | some r5 => some (String.mk tok.1, r5)
          | none => none

-- Anchored match of the python pattern import, whitespace, module; only tried
-- at line starts by the scanner below.
def tryMatchPyImport (cs : List Char) : Option (String × List Char) :=
  match stripLitL "import".toList cs with
  | none => none
  | some r1 =>
    let w := r1.span Char.isWhitespace
    if w.1.isEmpty then none
    else
      let tok := w.2.span (fun c => !(c.isWhitespace))
      if tok.1.isEmpty then none
      else some (String.mk tok.1, tok.2)

-- Repeated global matching: try the anchored match at each position from the
-- left; on a match, collect the capture and resume after the match, exactly
-- the lastIndex behavior of a global pattern. Every anchored match consumes
-- at least one character, so the fuel, initialized to the text length, never
-- runs out before the text does.
def scanFor (tryM : List Char → Option (String × List Char)) : Nat → List Char → List String
| 0, _ => []
| _+1, [] => []
| fuel+1, c :: rest =>
  match tryM (c :: rest) with
  | some (path, remaining) => path :: scanFor tryM fuel remaining
  | none => scanFor tryM fuel rest

def runScan (tryM : List Char → Option (String × List Char)) (cs : List Char) : List String :=
  scanFor tryM cs.length cs

-- Global multiline matching of the line-anchored python import pattern: the
-- anchored match is tried only at the start of the text or right after a
-- newline.
def scanPyImports : Nat → List Char → Bool → List String
| 0, _, _ => []
| _+1, [], _ => []
| fuel+1, c :: rest, atLineStart =>
  if atLineStart then
    match tryMatchPyImport (c :: rest) with
    | some (tok, remaining) => tok :: scanPyImports fuel remaining false
    | none => scanPyImports fuel rest (c = '\n')
  else scanPyImports fuel rest (c = '\n')

-- extractImports from src/services/dependencyService.ts lines 46 to 85: for
-- script extensions all matches of the js import pattern, then of the
-- side-effect pattern, then of the require pattern; for the python extension
-- the from-import pattern then the line-anchored import pattern; otherwise
-- nothing.
def extractImports (content fileName : String) : List String :=
  let cs := content.toList
  if strEndsWith fileName ".ts" || strEndsWith fileName ".tsx" ||
      strEndsWith fileName ".js" || strEndsWith fileName ".jsx" then
    runScan tryMatchJsImport cs ++ runScan tryMatchSideEffect cs ++
      runScan tryMatchRequire cs
  else if strEndsWith fileName ".py" then
    runScan tryMatchPyFrom cs ++ scanPyImports cs.length cs true
  else []

-- Insertion-ordered set of names, modeling new Set(files.map(f => f.name))
-- iterated with Array.from: duplicates keep their first position.
def jsSetAux (acc : List String) : List String → List String
| [] => acc
| n :: rest => jsSetAux (if n ∈ acc then acc else acc ++ [n]) rest

def jsSet (l : List String) : List String := jsSetAux [] l

-- The file name with its last dot-delimited segment removed, line 28.
def nameWithoutExt (name : String) : String :=
  String.intercalate "." (((splitOnCharL '.' name.toList).map String.mk).dropLast)

-- The final slash-delimited segment of the import path, line 29, with the
-- or-else fallback to the whole path when the last segment is empty.
def impBasename (imp : String) : String :=
  let b := ((splitOnCharL '/' imp.toList).map String.mk).getLastD ""
  if b = "" then imp else b

-- The matching predicate of the find call on lines 24 to 34.
def jsMatchesImport (name imp : String) : Bool :=
  name == imp ||
    (nameWithoutExt name == impBasename imp ||
      strEndsWith (nameWithoutExt name) ("/" ++ impBasename imp))

-- The resolution of one raw import reference against the name set.
def resolveImportTarget (fileNames : List String) (imp : String) : Option String :=
  fileNames.find? (fun name => jsMatchesImport name imp)

structure GraphNode where
  id : String
  name : String
  type : FileType
  val : Nat
deriving DecidableEq, Repr

structure GraphEdge where
  source : String
  target : String
deriving DecidableEq, Repr

structure DependencyGraphData where
  nodes : List GraphNode
  links : List GraphEdge
deriving DecidableEq, Repr

-- generateDependencyGraph from src/services/dependencyService.ts lines 3 to
-- 44: one node per file; for each source-kind file, each extracted reference
-- that resolves contributes one edge, in iteration order.
def generateDependencyGraph (files : List FileContext) : DependencyGraphData :=
  let nodes := files.map (fun f => GraphNode.mk f.name f.name f.type 1)
  let fileNames := jsSet (files.map (fun f => f.name))
  let links := (files.map (fun file =>
    if file.type = FileType.file then
      (extractImports file.content file.name).filterMap (fun imp =>
        (resolveImportTarget fileNames imp).map
          (fun targetName => GraphEdge.mk file.name targetName))
    else [])).flatten
  DependencyGraphData.mk nodes links

-- Index of the first occurrence of a name in a list, used to state the
-- first-match tie-break of the resolution.
def firstIdx : List String → String → Nat
| [], _ => 0
| b :: l, a => if a = b then 0 else firstIdx l a + 1

-- ===== Helper lemmas =====

-- When every attempt is a quota-classified failure, the loop runs its fuel
-- down completely and ends in the exhaustion message, performing one backend
-- call per fuel unit.
lemma geminiLoop_all_quota (backend : Nat → AttemptResult)
    (h : ∀ i, isQuotaFailure (backend i) = true) :
    ∀ fuel retries, fuel + retries = MAX_RETRIES + 1 → 1 ≤ fuel →
      (geminiAttemptLoop backend fuel retries).result = quotaExhaustedMessage ∧
      (geminiAttemptLoop backend fuel retries).calls = fuel := by
  intro fuel
  induction fuel with
  | zero => intro r _ h2; exact absurd h2 (by omega)
  | succ n ih =>
    intro retries hsum _
    have hq := h retries
    cases hb : backend retries with
    | success t => rw [hb] at hq; simp [isQuotaFailure] at hq
    | failure e =>
      rw [hb] at hq
      simp only [isQuotaFailure] at hq
      by_cases hr : retries < MAX_RETRIES
      · have hn : 1 ≤ n := by
          simp only [MAX_RETRIES] at hsum hr
          omega
        obtain ⟨ih1, ih2⟩ := ih (retries + 1) (by omega) hn
        simp [geminiAttemptLoop, hb, hq, hr, ih1, ih2]
      · simp [geminiAttemptLoop, hb, hq, hr]
        simp only [MAX_RETRIES] at hsum hr
        omega

-- Same situation with no explicit retry hints: the waits are the exponential
-- backoff values for the remaining retry numbers.
lemma geminiLoop_all_quota_delays (backend : Nat → AttemptResult)
    (h : ∀ i, isQuotaFailure (backend i) = true)
    (h0 : ∀ i e, backend i = AttemptResult.failure e → getRetryDelay e = 0) :
    ∀ fuel retries, fuel + retries = MAX_RETRIES + 1 →
      (geminiAttemptLoop backend fuel retries).delays
        = (List.range' (retries + 1) (fuel - 1)).map (fun n => (2000 * 2 ^ n : ℚ)) := by
  intro fuel
  induction fuel with
  | zero => intro r _; simp [geminiAttemptLoop]
  | succ n ih =>
    intro retries hsum
    have hq := h retries
    cases hb : backend retries with
    | success t => rw [hb] at hq; simp [isQuotaFailure] at hq
    | failure e =>
      rw [hb] at hq
      simp only [isQuotaFailure] at hq
      have hd : getRetryDelay e = 0 := h0 retries e hb
      by_cases hr : retries < MAX_RETRIES
      · have hn : 1 ≤ n := by
          simp only [MAX_RETRIES] at hsum hr
          omega
        have hrec := ih (retries + 1) (by omega)
        have hstep : (geminiAttemptLoop backend (n + 1) retries).delays
            = effectiveRetryDelay e (retries + 1)
                :: (geminiAttemptLoop backend n (retries + 1)).delays := by
          simp [geminiAttemptLoop, hb, hq, hr]
        rw [hstep, hrec]
        obtain ⟨m, hm⟩ : ∃ m, n = m + 1 := ⟨n - 1, by omega⟩
        subst hm
        simp [effectiveRetryDelay, hd, List.range'_succ]
      · have hstep : (geminiAttemptLoop backend (n + 1) retries).delays = [] := by
          simp [geminiAttemptLoop, hb, hq, hr]
        have hn : n = 0 := by
          simp only [MAX_RETRIES] at hsum hr
          omega
        subst hn
        simp [hstep]

-- ===== Claim theorems =====

/-- Claim C1: when the backend fails with a quota-classified error on every
attempt, sendMessageToGemini performs exactly 6 backend calls (1 initial
attempt plus 5 retries) and then returns the quota-exhaustion error string as
an ordinary return value; the embedding is a total function, so no exception
reaches the caller. -/
theorem c1_retry_bound (backend : Nat → AttemptResult)
    (h : ∀ i, isQuotaFailure (backend i) = true) :
    (sendMessageToGemini backend).calls = 6 ∧
    (sendMessageToGemini backend).result = quotaExhaustedMessage := by
  obtain ⟨h1, h2⟩ := geminiLoop_all_quota backend h (MAX_RETRIES + 1) 0
    (by omega) (by omega)
  constructor
  · simpa [sendMessageToGemini, MAX_RETRIES] using h2
  · simpa [sendMessageToGemini] using h1

/-- Witness for C1: a backend that always fails with HTTP status 429. -/
theorem c1_retry_bound_witness :
    (sendMessageToGemini (fun _ =>
      AttemptResult.failure (ApiError.mk false (some 429) none none none))).calls = 6 ∧
    (sendMessageToGemini (fun _ =>
      AttemptResult.failure (ApiError.mk false (some 429) none none none))).result
        = quotaExhaustedMessage :=
  c1_retry_bound _ (fun _ => rfl)

/-- Claim C4: a single backend failure that is not quota-classified makes
sendMessageToGemini return the wrapping error string immediately: one backend
call, no waits, and a returned value rather than an exception. -/
theorem c4_non_quota_immediate (backend : Nat → AttemptResult) (e : ApiError)
    (hb : backend 0 = AttemptResult.failure e) (hq : isQuotaError e = false) :
    sendMessageToGemini backend = RunResult.mk (nonQuotaErrorMessage e) 1 [] := by
  simp [sendMessageToGemini, geminiAttemptLoop, hb, hq]

/-- Witness for C4: a backend whose first attempt throws a plain error. -/
theorem c4_non_quota_immediate_witness :
    sendMessageToGemini (fun _ =>
        AttemptResult.failure (ApiError.mk true none none (some "boom") none))
      = RunResult.mk "Error: boom" 1 [] :=
  c4_non_quota_immediate
    (fun _ => AttemptResult.failure (ApiError.mk true none none (some "boom") none))
    (ApiError.mk true none none (some "boom") none) rfl (by decide)

/-- Claim C9 (amended): on a successful backend call, sendMessageToGemini
makes exactly one call; when the response text is absent or empty it returns
the fallback literal noTextFallback (the code literal, which differs from the
wording quoted in the claim) as a non-error result, and when the text is
nonempty it returns it verbatim. -/
theorem c9_text_fallback (backend : Nat → AttemptResult) (t : Option String)
    (hb : backend 0 = AttemptResult.success t) :
    (sendMessageToGemini backend).calls = 1 ∧
    (sendMessageToGemini backend).result = jsOrElse t noTextFallback ∧
    ((t = none ∨ t = some "") → (sendMessageToGemini backend).result = noTextFallback) ∧
    (∀ s, t = some s → ¬ s = "" → (sendMessageToGemini backend).result = s) := by
  have hrun : sendMessageToGemini backend = RunResult.mk (jsOrElse t noTextFallback) 1 [] := by
    simp [sendMessageToGemini, geminiAttemptLoop, hb]
  refine ⟨by simp [hrun], by simp [hrun], ?_, ?_⟩
  · rintro (rfl | rfl) <;> simp [hrun, jsOrElse]
  · rintro s rfl hs
    simp [hrun, jsOrElse, hs]

/-- Witness for C9: a backend that succeeds with an empty text. -/
theorem c9_text_fallback_witness :
    (sendMessageToGemini (fun _ => AttemptResult.success (some ""))).result
      = noTextFallback :=
  (c9_text_fallback _ (some "") rfl).2.2.1 (Or.inr rfl)

/-- Counterexample for C9 as stated: on an empty successful response the
returned string is the code literal, not the string quoted in the claim. -/
theorem c9_text_fallback_counterexample :
    (sendMessageToGemini (fun _ => AttemptResult.success (some ""))).result
        = noTextFallback ∧
    ¬ (sendMessageToGemini (fun _ => AttemptResult.success (some ""))).result
        = "no textual response produced" := by
  decide

/-- Claim C2: in Debug mode the step-3 decision is a plain substring check on
the parsed verification text: when the marker substring is present the final
answer is the visible draft text and exactly 2 Completion Client calls occur,
otherwise exactly one refine call is added (3 calls total) and the final
answer is the visible refinement text; the two spec example responses are
classified as success and failure respectively. -/
theorem c2_debug_decision (oracle : Nat → String) :
    (debugFlow oracle).calls
        = (if jsIncludes (processResponse (oracle 1)).text verifiedMarker then 2 else 3) ∧
    (debugFlow oracle).finalText
        = (if jsIncludes (processResponse (oracle 1)).text verifiedMarker
           then (processResponse (oracle 0)).text
           else (processResponse (oracle 2)).text) ∧
    jsIncludes (processResponse "Some preamble. STATUS: VERIFIED. Trailing text.").text
        verifiedMarker = true ∧
    jsIncludes (processResponse "STATUS: FAILED\nreason: off by one").text
        verifiedMarker = false := by
  refine ⟨?_, ?_, by decide, by decide⟩ <;>
    by_cases hv : jsIncludes (processResponse (oracle 1)).text verifiedMarker <;>
      simp [debugFlow, hv]

/-- Claim C5: the parser extracts and removes the first tag block: the spec
round-trip example, the unchanged pass-through when no opening tag occurs,
and first-block-only extraction when several blocks are present. -/
theorem c5_trace_round_trip :
    processResponse "intro <thinking>reasoned here</thinking> conclusion"
        = ProcessedResponse.mk "intro  conclusion" (some "reasoned here") ∧
    (∀ s : String, jsIncludes s "<thinking>" = false →
        processResponse s = ProcessedResponse.mk s none) ∧
    processResponse "a<thinking>x</thinking>b<thinking>y</thinking>c"
        = ProcessedResponse.mk "ab<thinking>y</thinking>c" (some "x") := by
  refine ⟨by decide, ?_, by decide⟩
  intro s h
  unfold jsIncludes at h
  unfold processResponse
  cases hsp : splitFirst s "<thinking>" with
  | none => rfl
  | some pr => rw [hsp] at h; simp at h

/-- Witness for C5: a tag-free input passes through unchanged. -/
theorem c5_trace_round_trip_witness :
    processResponse "no tags here" = ProcessedResponse.mk "no tags here" none :=
  c5_trace_round_trip.2.1 "no tags here" (by decide)

-- A parsed decimal literal is nonnegative.
lemma parseDecFrac_nonneg (cs : List Char) (q : ℚ) (r : List Char)
    (h : parseDecFrac cs = some (q, r)) : 0 ≤ q := by
  simp only [parseDecFrac] at h
  split at h
  · exact absurd h (by simp)
  · split at h
    · split at h
      · obtain ⟨rfl, rfl⟩ := Prod.mk.injEq .. ▸ Option.some.injEq .. ▸ h
        positivity
      · obtain ⟨rfl, rfl⟩ := Prod.mk.injEq .. ▸ Option.some.injEq .. ▸ h
        positivity
    · obtain ⟨rfl, rfl⟩ := Prod.mk.injEq .. ▸ Option.some.injEq .. ▸ h
      positivity

-- Any value produced by the retry-in scanner is nonnegative.
lemma scanRetryIn_nonneg : ∀ fuel cs q, scanRetryIn fuel cs = some q → 0 ≤ q := by
  intro fuel
  induction fuel with
  | zero => intro cs q h; simp [scanRetryIn] at h
  | succ n ih =>
    intro cs q h
    cases cs with
    | nil => simp [scanRetryIn] at h
    | cons c rest =>
      simp only [scanRetryIn] at h
      split at h
      · split at h
        next q' tail heq =>
          obtain rfl : q' = q := by simpa using h
          exact parseDecFrac_nonneg _ _ _ heq
        next => exact ih rest q h
      · exact ih rest q h

lemma findRetryInMatch_nonneg (m : String) (q : ℚ)
    (h : findRetryInMatch m = some q) : 0 ≤ q :=
  scanRetryIn_nonneg _ _ _ h

/-- Claim C3 (amended): the retry delay follows the stated precedence: an
explicit RetryInfo retryDelay of S seconds gives (S+1)*1000 ms; otherwise a
retry-in-N-seconds message pattern gives (N+1)*1000 ms; otherwise retry n
waits 2000*2^n ms, so the successive fallback delays for retries 1..5 are
4000, 8000, 16000, 32000, 64000 ms (the list 2000..32000 of the claim
contradicts the formula of the same claim and is what the code does not do). -/
theorem c3_retry_delay_policy :
    (∀ (e : ApiError) (ds : List RetryDetail) (d : RetryDetail) (rd : String) (S : Nat),
        e.details = some ds →
        ds.find? (fun x => x.isRetryInfoType) = some d →
        d.retryDelay = some rd →
        jsParseInt (replaceFirst rd "s" "") = some (S : Int) →
        getRetryDelay e = (((S : Nat) : ℚ) + 1) * 1000 ∧
          ∀ n, effectiveRetryDelay e n = (((S : Nat) : ℚ) + 1) * 1000) ∧
    (∀ (e : ApiError) (m : String) (N : ℚ),
        retryInfoDelayOpt e = none →
        e.message = some m →
        findRetryInMatch m = some N →
        getRetryDelay e = (N + 1) * 1000 ∧
          ∀ n, effectiveRetryDelay e n = (N + 1) * 1000) ∧
    (∀ (e : ApiError) (n : Nat), getRetryDelay e = 0 →
        effectiveRetryDelay e n = 2000 * 2 ^ n) ∧
    (∀ backend : Nat → AttemptResult,
        (∀ i, isQuotaFailure (backend i) = true) →
        (∀ i e, backend i = AttemptResult.failure e → getRetryDelay e = 0) →
        (sendMessageToGemini backend).delays = [4000, 8000, 16000, 32000, 64000]) := by
  refine ⟨?_, ?_, ?_, ?_⟩
  · intro e ds d rd S hdet hfind hrd hparse
    have h1 : getRetryDelay e = (((S : Nat) : ℚ) + 1) * 1000 := by
      simp [getRetryDelay, retryInfoDelayOpt, hdet, hfind, hrd, hparse]
    have hpos : (0 : ℚ) < (((S : Nat) : ℚ) + 1) * 1000 := by positivity
    exact ⟨h1, fun n => by simp [effectiveRetryDelay, h1, hpos.ne']⟩
  · intro e m N hnone hmsg hmatch
    have h1 : getRetryDelay e = (N + 1) * 1000 := by
      simp [getRetryDelay, hnone, messageDelayOpt, hmsg, hmatch]
    have hN := findRetryInMatch_nonneg m N hmatch
    have hpos : (0 : ℚ) < (N + 1) * 1000 := by nlinarith
    exact ⟨h1, fun n => by simp [effectiveRetryDelay, h1, hpos.ne']⟩
  · intro e n h
    simp [effectiveRetryDelay, h]
  · intro backend hq h0
    have h := geminiLoop_all_quota_delays backend hq h0 (MAX_RETRIES + 1) 0 (by omega)
    have hr : List.range' (0 + 1) (MAX_RETRIES + 1 - 1) = [1, 2, 3, 4, 5] := by decide
    have h2 : (sendMessageToGemini backend).delays
        = [(2000 * 2 ^ 1 : ℚ), 2000 * 2 ^ 2, 2000 * 2 ^ 3, 2000 * 2 ^ 4, 2000 * 2 ^ 5] := by
      rw [sendMessageToGemini, h, hr]
      simp
    rw [h2]
    norm_num

/-- Witness for C3: a RetryInfo payload of 30 seconds yields a 31000 ms delay,
and an always-quota backend with no hints waits 4000 to 64000 ms. -/
theorem c3_retry_delay_policy_witness :
    getRetryDelay (ApiError.mk false none none none
        (some [RetryDetail.mk true (some "30s")])) = (((30 : Nat) : ℚ) + 1) * 1000 ∧
    (sendMessageToGemini (fun _ =>
        AttemptResult.failure (ApiError.mk false (some 429) none none none))).delays
      = [4000, 8000, 16000, 32000, 64000] :=
  ⟨(c3_retry_delay_policy.1
      (ApiError.mk false none none none (some [RetryDetail.mk true (some "30s")]))
      [RetryDetail.mk true (some "30s")] (RetryDetail.mk true (some "30s"))
      "30s" 30 rfl (by decide) rfl (by decide)).1,
   c3_retry_delay_policy.2.2.2
      (fun _ => AttemptResult.failure (ApiError.mk false (some 429) none none none))
      (fun _ => rfl) (fun _ e h => by cases h; rfl)⟩

-- Membership in the insertion-ordered set implies membership in the
-- accumulator or the remaining input.
lemma jsSetAux_subset : ∀ (l acc : List String) (a : String),
    a ∈ jsSetAux acc l → a ∈ acc ∨ a ∈ l := by
  intro l
  induction l with
  | nil =>
    intro acc a h
    simp only [jsSetAux] at h
    exact Or.inl h
  | cons n rest ih =>
    intro acc a h
    simp only [jsSetAux] at h
    rcases ih _ a h with hacc | hrest
    · by_cases hn : n ∈ acc
      · rw [if_pos hn] at hacc
        exact Or.inl hacc
      · rw [if_neg hn] at hacc
        rcases List.mem_append.mp hacc with h1 | h1
        · exact Or.inl h1
        · simp at h1
          subst h1
          exact Or.inr (List.mem_cons_self ..)
    · exact Or.inr (List.mem_cons_of_mem _ hrest)

lemma jsSet_subset (l : List String) (a : String) (h : a ∈ jsSet l) : a ∈ l := by
  rcases jsSetAux_subset l [] a h with h1 | h1
  · simp at h1
  · exact h1

-- Searching the insertion-ordered set finds the same name as searching the
-- original list: duplicates only drop later copies of an equal name.
lemma find?_jsSetAux (p : String → Bool) : ∀ (l acc : List String),
    List.find? p (jsSetAux acc l) = List.find? p (acc ++ l) := by
  intro l
  induction l with
  | nil => intro acc; simp [jsSetAux]
  | cons n rest ih =>
    intro acc
    simp only [jsSetAux]
    rw [ih]
    by_cases hn : n ∈ acc
    · rw [if_pos hn]
      by_cases hp : p n = true
      · have hsome : (List.find? p acc).isSome := List.find?_isSome.mpr ⟨n, hn, hp⟩
        obtain ⟨a, ha⟩ := Option.isSome_iff_exists.mp hsome
        rw [List.find?_append, List.find?_append, ha]
        simp
      · have hp' : p n = false := by simpa using hp
        rw [List.find?_append, List.find?_append]
        congr 1
        rw [List.find?_cons, hp']
    · rw [if_neg hn, List.append_assoc]
      rfl

lemma find?_jsSet (p : String → Bool) (l : List String) :
    List.find? p (jsSet l) = List.find? p l := by
  simpa [jsSet] using find?_jsSetAux p l []

-- The element returned by find? sits no later than any other element
-- satisfying the predicate.
lemma find?_firstIdx_le (p : String → Bool) : ∀ (l : List String) (t : String),
    List.find? p l = some t → ∀ n ∈ l, p n = true → firstIdx l t ≤ firstIdx l n := by
  intro l
  induction l with
  | nil => intro t ht; simp at ht
  | cons h tl ih =>
    intro t ht n hn hp
    rw [List.find?_cons] at ht
    by_cases hph : p h = true
    · rw [hph] at ht
      obtain rfl : h = t := by simpa using ht
      simp [firstIdx]
    · have hp' : p h = false := by simpa using hph
      rw [hp'] at ht
      simp only at ht
      have hth : t ≠ h := by
        intro he
        subst he
        exact absurd (List.find?_some ht) (by simp [hp'])
      have hnh : n ≠ h := by
        intro he
        subst he
        rw [hp'] at hp
        exact absurd hp (by simp)
      have hn' : n ∈ tl := by
        rcases List.mem_cons.mp hn with h1 | h1
        · exact absurd h1 hnh
        · exact h1
      have hle := ih t ht n hn' hp
      simp only [firstIdx, if_neg hth, if_neg hnh]
      omega

-- Pointwise equal functions map lists equally.
lemma map_pointwise_congr {α β : Type} (l : List α) (f g : α → β)
    (h : ∀ a, f a = g a) : l.map f = l.map g := by
  induction l with
  | nil => rfl
  | cons x xs ih => simp only [List.map_cons, h, ih]

-- A function that fixes every member maps the list to itself.
lemma map_eq_self_on {α : Type} (l : List α) (f : α → α)
    (h : ∀ a ∈ l, f a = a) : l.map f = l := by
  induction l with
  | nil => rfl
  | cons x xs ih =>
    rw [List.map_cons, h x (List.mem_cons_self ..),
      ih (fun a ha => h a (List.mem_cons_of_mem _ ha))]

lemma updateContent_name (eid c : String) (f : FileContext) :
    (updateContent eid c f).name = f.name := by
  unfold updateContent
  split <;> rfl

lemma updateContent_id (eid c : String) (f : FileContext) :
    (updateContent eid c f).id = f.id := by
  unfold updateContent
  split <;> rfl

lemma applyChangePred_updateContent (n eid c : String) (f : FileContext) :
    applyChangePred n (updateContent eid c f) = applyChangePred n f := by
  simp [applyChangePred, updateContent_name]

lemma updateContent_idem (eid c : String) (f : FileContext) :
    updateContent eid c (updateContent eid c f) = updateContent eid c f := by
  simp only [updateContent]
  by_cases h : (f.id == eid) = true <;> simp [h]

/-- Counterexample for C3 as stated: with no retry hints the successive
fallback delays are 4000..64000 ms, not the 2000..32000 ms listed by the
claim. -/
theorem c3_retry_delay_policy_counterexample :
    (sendMessageToGemini (fun _ =>
        AttemptResult.failure (ApiError.mk false (some 429) none none none))).delays
        = [4000, 8000, 16000, 32000, 64000] ∧
    ¬ (sendMessageToGemini (fun _ =>
        AttemptResult.failure (ApiError.mk false (some 429) none none none))).delays
        = [2000, 4000, 8000, 16000, 32000] := by
  have h := geminiLoop_all_quota_delays
    (fun _ => AttemptResult.failure (ApiError.mk false (some 429) none none none))
    (fun _ => rfl) (fun _ e h => by cases h; rfl) (MAX_RETRIES + 1) 0 (by omega)
  have hr : List.range' (0 + 1) (MAX_RETRIES + 1 - 1) = [1, 2, 3, 4, 5] := by decide
  have h2 : (sendMessageToGemini (fun _ =>
      AttemptResult.failure (ApiError.mk false (some 429) none none none))).delays
      = [(2000 * 2 ^ 1 : ℚ), 2000 * 2 ^ 2, 2000 * 2 ^ 3, 2000 * 2 ^ 4, 2000 * 2 ^ 5] := by
    rw [sendMessageToGemini, h, hr]
    simp
  rw [h2]
  constructor
  · norm_num
  · norm_num

/-- Claim C6: on the corpus of src/utils.ts and src/helper.ts plus a source
file whose content is the import statement of the spec example, the Graph
Builder emits exactly the directed edge from the importing file to
src/utils.ts and no edge to src/helper.ts. -/
theorem c6_import_resolution :
    (generateDependencyGraph
      [FileContext.mk "u" "src/utils.ts" "export const x = 1" FileType.file none,
       FileContext.mk "h" "src/helper.ts" "export const y = 2" FileType.file none,
       FileContext.mk "m" "src/main.ts" "import \x7b x \x7d from \x27./utils\x27"
         FileType.file none]).links
      = [GraphEdge.mk "src/main.ts" "src/utils.ts"] ∧
    ((generateDependencyGraph
      [FileContext.mk "u" "src/utils.ts" "export const x = 1" FileType.file none,
       FileContext.mk "h" "src/helper.ts" "export const y = 2" FileType.file none,
       FileContext.mk "m" "src/main.ts" "import \x7b x \x7d from \x27./utils\x27"
         FileType.file none]).links.all
        (fun l => !(l.target == "src/helper.ts"))) = true := by
  decide

/-- Claim C7: every edge of any generated graph has a node of the same name at
both endpoints, and an unresolvable reference contributes no edge; the builder
is a total function, so it never raises. -/
theorem c7_edge_endpoints :
    (∀ (files : List FileContext) (l : GraphEdge),
        l ∈ (generateDependencyGraph files).links →
        (∃ n ∈ (generateDependencyGraph files).nodes, n.name = l.source) ∧
        (∃ n ∈ (generateDependencyGraph files).nodes, n.name = l.target)) ∧
    (generateDependencyGraph
        [FileContext.mk "f1" "main.ts" "import \x27nonexistent-module\x27"
          FileType.file none]).links = [] := by
  constructor
  · intro files l hl
    simp only [generateDependencyGraph, List.mem_flatten, List.mem_map] at hl
    obtain ⟨L, ⟨f, hf, rfl⟩, hlL⟩ := hl
    by_cases ht : f.type = FileType.file
    · rw [if_pos ht] at hlL
      rw [List.mem_filterMap] at hlL
      obtain ⟨imp, _, hres⟩ := hlL
      rw [Option.map_eq_some'] at hres
      obtain ⟨t, hres, rfl⟩ := hres
      constructor
      · refine ⟨GraphNode.mk f.name f.name f.type 1, ?_, rfl⟩
        simp only [generateDependencyGraph, List.mem_map]
        exact ⟨f, hf, rfl⟩
      · have htmem : t ∈ jsSet (files.map (fun f => f.name)) :=
          List.mem_of_find?_eq_some (by simpa [resolveImportTarget] using hres)
        have htname := jsSet_subset _ _ htmem
        rw [List.mem_map] at htname
        obtain ⟨g, hg, hgt⟩ := htname
        refine ⟨GraphNode.mk g.name g.name g.type 1, ?_, by simpa using hgt⟩
        simp only [generateDependencyGraph, List.mem_map]
        exact ⟨g, hg, rfl⟩
    · rw [if_neg ht] at hlL
      simp at hlL
  · decide

/-- Witness for C7: a concrete corpus with one resolving import. -/
theorem c7_edge_endpoints_witness :
    (∃ n ∈ (generateDependencyGraph
        [FileContext.mk "u" "utils.ts" "export const x = 1" FileType.file none,
         FileContext.mk "m" "app.ts" "import \x7b x \x7d from \x27./utils\x27"
           FileType.file none]).nodes,
        n.name = (GraphEdge.mk "app.ts" "utils.ts").source) ∧
    (∃ n ∈ (generateDependencyGraph
        [FileContext.mk "u" "utils.ts" "export const x = 1" FileType.file none,
         FileContext.mk "m" "app.ts" "import \x7b x \x7d from \x27./utils\x27"
           FileType.file none]).nodes,
        n.name = (GraphEdge.mk "app.ts" "utils.ts").target) :=
  c7_edge_endpoints.1
    [FileContext.mk "u" "utils.ts" "export const x = 1" FileType.file none,
     FileContext.mk "m" "app.ts" "import \x7b x \x7d from \x27./utils\x27"
       FileType.file none]
    (GraphEdge.mk "app.ts" "utils.ts") (by decide)

/-- Claim C10: resolution of a raw reference against the corpus names is the
first-match search over the insertion-ordered name set, so the resolved
target satisfies the matching rule and no file earlier in corpus order
satisfies it; the builder itself is a function of the corpus list, hence
deterministic. -/
theorem c10_resolution_first_match (files : List FileContext) (imp t : String)
    (h : resolveImportTarget (jsSet (files.map (fun f => f.name))) imp = some t) :
    jsMatchesImport t imp = true ∧
    ∀ n ∈ files.map (fun f => f.name), jsMatchesImport n imp = true →
      firstIdx (files.map (fun f => f.name)) t
        ≤ firstIdx (files.map (fun f => f.name)) n := by
  rw [resolveImportTarget, find?_jsSet] at h
  refine ⟨?_, find?_firstIdx_le _ _ _ h⟩
  have hp := List.find?_some h
  simpa using hp

/-- Witness for C10: two files both suffix-matching the reference; the
resolved target is the one earliest in corpus order. -/
theorem c10_resolution_first_match_witness :
    jsMatchesImport "a/helper.ts" "./helper" = true ∧
    ∀ n ∈ ([FileContext.mk "1" "a/helper.ts" "x" FileType.file none,
            FileContext.mk "2" "b/helper.ts" "y" FileType.file none].map
              (fun f => f.name)),
      jsMatchesImport n "./helper" = true →
      firstIdx ([FileContext.mk "1" "a/helper.ts" "x" FileType.file none,
                 FileContext.mk "2" "b/helper.ts" "y" FileType.file none].map
                   (fun f => f.name)) "a/helper.ts"
        ≤ firstIdx ([FileContext.mk "1" "a/helper.ts" "x" FileType.file none,
                     FileContext.mk "2" "b/helper.ts" "y" FileType.file none].map
                       (fun f => f.name)) n :=
  c10_resolution_first_match
    [FileContext.mk "1" "a/helper.ts" "x" FileType.file none,
     FileContext.mk "2" "b/helper.ts" "y" FileType.file none]
    "./helper" "a/helper.ts" (by decide)

/-- Claim C8 (amended): apply-change is idempotent when the id minted for an
appended record is fresh; an existing matched record (the first record whose
name equals fileName or ends with slash-fileName) has its content replaced in
place, preserving length and names; a new record is appended only when no
record matches, and in that case exactly one record of that name exists
afterwards. The stronger claim that exactly one record for the name holds the
final content after every apply fails, see the counterexample. -/
theorem c8_apply_change :
    (∀ (s : List FileContext) (n c id1 id2 : String),
        (∀ f ∈ s, f.id ≠ id1) →
        handleApplyChange id2 n c (handleApplyChange id1 n c s)
          = handleApplyChange id1 n c s) ∧
    (∀ (s : List FileContext) (n c idN : String) (e : FileContext),
        s.find? (applyChangePred n) = some e →
        (handleApplyChange idN n c s).length = s.length ∧
        (handleApplyChange idN n c s).map (fun f => f.name)
          = s.map (fun f => f.name)) ∧
    (∀ (s : List FileContext) (n c idN : String),
        s.find? (applyChangePred n) = none →
        handleApplyChange idN n c s
          = s ++ [FileContext.mk idN n c FileType.file none] ∧
        ((handleApplyChange idN n c s).filter (fun f => f.name == n)).length = 1) := by
  refine ⟨?_, ?_, ?_⟩
  · intro s n c id1 id2 hfresh
    cases hfind : s.find? (applyChangePred n) with
    | some e =>
      have h1 : handleApplyChange id1 n c s = s.map (updateContent e.id c) := by
        simp [handleApplyChange, hfind]
      have hfind2 : (s.map (updateContent e.id c)).find? (applyChangePred n)
          = some (updateContent e.id c e) := by
        rw [List.find?_map]
        have hcomp : (applyChangePred n ∘ updateContent e.id c) = applyChangePred n := by
          funext f
          simp [Function.comp, applyChangePred_updateContent]
        rw [hcomp, hfind]
        rfl
      rw [h1]
      simp only [handleApplyChange, hfind2]
      rw [updateContent_id, List.map_map]
      exact map_pointwise_congr _ _ _ (fun f => updateContent_idem e.id c f)
    | none =>
      have h1 : handleApplyChange id1 n c s
          = s ++ [FileContext.mk id1 n c FileType.file none] := by
        simp [handleApplyChange, hfind]
      have hfind2 : (s ++ [FileContext.mk id1 n c FileType.file none]).find?
          (applyChangePred n) = some (FileContext.mk id1 n c FileType.file none) := by
        rw [List.find?_append, hfind]
        simp [List.find?_cons, applyChangePred]
      rw [h1]
      simp only [handleApplyChange, hfind2]
      rw [List.map_append]
      congr 1
      · refine map_eq_self_on _ _ (fun f hf => ?_)
        have hid : (f.id == id1) = false := by
          simpa using hfresh f hf
        simp [updateContent, hid]
      · simp [updateContent]
  · intro s n c idN e hfind
    have h1 : handleApplyChange idN n c s = s.map (updateContent e.id c) := by
      simp [handleApplyChange, hfind]
    constructor
    · rw [h1, List.length_map]
    · rw [h1, List.map_map]
      exact map_pointwise_congr _ _ _ (fun f => by
        simp [Function.comp, updateContent_name])
  · intro s n c idN hfind
    have h1 : handleApplyChange idN n c s
        = s ++ [FileContext.mk idN n c FileType.file none] := by
      simp [handleApplyChange, hfind]
    refine ⟨h1, ?_⟩
    rw [h1, List.filter_append]
    have hs : s.filter (fun f => f.name == n) = [] := by
      rw [List.filter_eq_nil_iff]
      intro f hf
      have hnp := List.find?_eq_none.mp hfind f hf
      simp [applyChangePred] at hnp
      simp [hnp.1]
    rw [hs]
    simp

/-- Witness for C8: a fresh id on a one-record corpus; applying the same
change twice equals applying it once. -/
theorem c8_apply_change_witness :
    handleApplyChange "i2" "a.ts" "new" (handleApplyChange "i1" "a.ts" "new"
        [FileContext.mk "9" "a.ts" "old" FileType.file none])
      = handleApplyChange "i1" "a.ts" "new"
        [FileContext.mk "9" "a.ts" "old" FileType.file none] :=
  c8_apply_change.1 [FileContext.mk "9" "a.ts" "old" FileType.file none]
    "a.ts" "new" "i1" "i2" (by decide)

/-- Counterexample for C8 as stated: with two records named x.ts, applying a
change to x.ts twice leaves two records of that name, one of them stale, so
it is false that exactly one record exists for that name holding the final
content. -/
theorem c8_apply_change_counterexample :
    ((handleApplyChange "g2" "x.ts" "new" (handleApplyChange "g1" "x.ts" "new"
        [FileContext.mk "1" "x.ts" "old" FileType.file none,
         FileContext.mk "2" "x.ts" "old" FileType.file none])).filter
        (fun f => f.name == "x.ts")).length = 2 ∧
    ¬ ((handleApplyChange "g2" "x.ts" "new" (handleApplyChange "g1" "x.ts" "new"
        [FileContext.mk "1" "x.ts" "old" FileType.file none,
         FileContext.mk "2" "x.ts" "old" FileType.file none])).filter
        (fun f => f.name == "x.ts")).length = 1 := by
  decide
